import Mathlib

/-!
Verification development for the WebServer repository (event-driven HTTP/1.x
static-file server).  The definitions below are a shallow embedding of the
C++ sources under src/WebServer; byte strings are modelled as lists of
characters, C++ size_t values as natural numbers with explicit wrap at
2^64 where the source can overflow, and C++ int values as integers with
explicit 32-bit truncation where the source converts from size_t.
-/

set_option maxRecDepth 10000

/-- Byte strings of the server are modelled as lists of characters. -/
abbrev Str := List Char

/-- Conversion from a Lean string literal to the model type. -/
def cs (s : String) : Str := s.toList

/-- Modulus of the C++ size_t type (64-bit unsigned). -/
def USIZE_MOD : Nat := 18446744073709551616

/-- std::string::npos, the value size_t(-1). -/
def npos : Nat := USIZE_MOD - 1

/-- Conversion of a size_t value to a C++ int (32-bit two's-complement
truncation); std::string::find results are stored into int variables
throughout HttpData.cpp, which maps npos to -1. -/
def toInt32 (n : Nat) : Int :=
  if n % 4294967296 < 2147483648 then ((n % 4294967296 : Nat) : Int)
  else ((n % 4294967296 : Nat) : Int) - 4294967296

/-- Conversion of a C++ int value to size_t (two's-complement reinterpretation
modulo 2^64), as happens when an int index is passed to substr or compared
against a size_t. -/
def toUsize (v : Int) : Nat := (v % (USIZE_MOD : Int)).toNat

/-- Wrapping size_t subtraction a - b (the source subtracts a possibly larger
or negative quantity from a size_t, which wraps modulo 2^64). -/
def usub (a b : Nat) : Nat := (a + USIZE_MOD - b % USIZE_MOD) % USIZE_MOD

/-- Scanning helper for std::string::find(char, from): first index at or
after the running index holding the character, npos when absent. -/
def goFindChar (c : Char) : List Char → Nat → Nat
  | [], _ => npos
  | x :: t, i => if x = c then i else goFindChar c t (i + 1)

/-- std::string::find(char, from) on the model: index of the first occurrence
of the character at or after position start, npos when there is none. -/
def strFindChar (s : Str) (c : Char) (start : Nat) : Nat :=
  goFindChar c (s.drop start) start

/-- Scanning helper for std::string::find(substring, from). -/
def goFindSub (pat : List Char) : List Char → Nat → Nat
  | [], i => if pat.isPrefixOf ([] : List Char) then i else npos
  | x :: t, i => if pat.isPrefixOf (x :: t) then i else goFindSub pat t (i + 1)

/-- std::string::find(pattern, from) on the model: first index at or after
start where the pattern occurs, npos when there is none. -/
def strFindSub (s pat : Str) (start : Nat) : Nat :=
  goFindSub pat (s.drop start) start

/-- std::string::substr(pos, len) on the model. -/
def substr (s : Str) (pos len : Nat) : Str := (s.drop pos).take len

/-- std::to_string on a natural number (decimal digits). -/
def natToStr (n : Nat) : Str := Nat.toDigits 10 n

/-- std::stoi on the model: optional sign followed by decimal digits.
The out-of-range and no-digit exception cases of stoi are not exercised by
any claim; a digitless string is mapped to 0 here. -/
def cppStoi (s : Str) : Int :=
  let s := s.dropWhile (fun c => c = ' ' ∨ c = '\t')
  match s with
  | '-' :: t => - ((t.takeWhile Char.isDigit).foldl (fun a c => a * 10 + (c.toNat - 48)) 0 : Nat)
  | '+' :: t => ((t.takeWhile Char.isDigit).foldl (fun a c => a * 10 + (c.toNat - 48)) 0 : Nat)
  | t => ((t.takeWhile Char.isDigit).foldl (fun a c => a * 10 + (c.toNat - 48)) 0 : Nat)

/-- Top-level parse states of HttpData (HttpData.h, enum ProcessState). -/
inductive ProcessState
  | STATE_PARSE_URI
  | STATE_PARSE_HEADERS
  | STATE_RECV_BODY
  | STATE_ANALYSIS
  | STATE_FINISH
deriving DecidableEq, Repr

/-- Result states of parseURI (HttpData.h, enum URIState). -/
inductive URIState
  | PARSE_URI_AGAIN
  | PARSE_URI_ERROR
  | PARSE_URI_SUCCESS
deriving DecidableEq, Repr

/-- Result states of parseHeaders (HttpData.h, enum HeaderState). -/
inductive HeaderState
  | PARSE_HEADER_SUCCESS
  | PARSE_HEADER_AGAIN
  | PARSE_HEADER_ERROR
deriving DecidableEq, Repr

/-- Result states of analysisRequest (HttpData.h, enum AnalysisState). -/
inductive AnalysisState
  | ANALYSIS_SUCCESS
  | ANALYSIS_ERROR
deriving DecidableEq, Repr

/-- Header sub-machine states (HttpData.h, enum ParseState). -/
inductive HParseState
  | H_START
  | H_KEY
  | H_COLON
  | H_SPACES_AFTER_COLON
  | H_VALUE
  | H_CR
  | H_LF
  | H_END_CR
  | H_END_LF
deriving DecidableEq, Repr

/-- HTTP request methods (HttpData.h, enum HttpMethod). -/
inductive HttpMethod
  | METHOD_POST
  | METHOD_GET
  | METHOD_HEAD
deriving DecidableEq, Repr

/-- HTTP versions (HttpData.h, enum HttpVersion). -/
inductive HttpVersion
  | HTTP_10
  | HTTP_11
deriving DecidableEq, Repr

open ProcessState URIState HeaderState AnalysisState HParseState HttpMethod HttpVersion

/-- The header map headers_ (std::unordered_map with case-sensitive string
keys), modelled as an association list. -/
abbrev Headers := List (Str × Str)

/-- Lookup in the header map (headers_.find), case sensitive. -/
def hfind (m : Headers) (k : Str) : Option Str :=
  (m.find? (fun p => p.1 = k)).map (fun p => p.2)

/-- Insertion into the header map (headers_[key] = value); a later occurrence
of a key overwrites the earlier one. -/
def hinsert (m : Headers) (k v : Str) : Headers :=
  if m.any (fun p => p.1 = k) then
    m.map (fun p => if p.1 = k then (k, v) else p)
  else m ++ [(k, v)]

/-- Result record of HttpData::parseURI: the returned URIState together with
the members the call may have mutated (inBuffer_, fileName_, method_,
HTTPVersion_). -/
structure URIOut where
  flag : URIState
  inBuffer : Str
  fileName : Str
  method : HttpMethod
  version : HttpVersion
deriving DecidableEq, Repr

/-- HttpData::parseURI (HttpData.cpp lines 464-542), transcribed with C++
unsigned semantics: pos is a size_t, so the source's pos < 0 tests are
always false (they are kept here verbatim on Nat, where they are likewise
false), and arithmetic on positions wraps modulo 2^64 exactly where the
size_t arithmetic of the source does. -/
def parseURI (inBuffer0 fileName0 : Str) (nowReadPos : Nat)
    (method0 : HttpMethod) (version0 : HttpVersion) : URIOut :=
  let str := inBuffer0
  let pos := strFindChar str '\r' nowReadPos
  if pos < 0 then
    { flag := PARSE_URI_AGAIN, inBuffer := str, fileName := fileName0,
      method := method0, version := version0 }
  else
    let request_line := str.take pos
    let str := if str.length > (pos + 1) % USIZE_MOD
               then str.drop ((pos + 1) % USIZE_MOD) else []
    let posGet := toInt32 (strFindSub request_line (cs "GET") 0)
    let posPost := toInt32 (strFindSub request_line (cs "POST") 0)
    let posHead := toInt32 (strFindSub request_line (cs "HEAD") 0)
    let methodSel : Option (Nat × HttpMethod) :=
      if posGet ≥ 0 then some (toUsize posGet, METHOD_GET)
      else if posPost ≥ 0 then some (toUsize posPost, METHOD_POST)
      else if posHead ≥ 0 then some (toUsize posHead, METHOD_HEAD)
      else none
    match methodSel with
    | none =>
      { flag := PARSE_URI_ERROR, inBuffer := str, fileName := fileName0,
        method := method0, version := version0 }
    | some (pos, method) =>
      let pos := strFindChar request_line '/' pos
      if pos < 0 then
        { flag := PARSE_URI_SUCCESS, inBuffer := str, fileName := cs "index.html",
          method := method, version := HTTP_11 }
      else
        let uexit := strFindChar request_line ' ' pos
        if uexit < 0 then
          { flag := PARSE_URI_ERROR, inBuffer := str, fileName := fileName0,
            method := method, version := version0 }
        else
          let fileName :=
            if uexit - pos > 1 then
              let fn := substr request_line (pos + 1) (uexit - pos - 1)
              let qpos := strFindChar fn '?' 0
              if qpos ≥ 0 then fn.take qpos else fn
            else cs "index.html"
          let pos := uexit
          let pos := strFindChar request_line '/' pos
          if pos < 0 then
            { flag := PARSE_URI_ERROR, inBuffer := str, fileName := fileName,
              method := method, version := version0 }
          else
            if usub request_line.length pos ≤ 3 then
              { flag := PARSE_URI_ERROR, inBuffer := str, fileName := fileName,
                method := method, version := version0 }
            else
              let ver := substr request_line ((pos + 1) % USIZE_MOD) 3
              if ver = cs "1.0" then
                { flag := PARSE_URI_SUCCESS, inBuffer := str, fileName := fileName,
                  method := method, version := HTTP_10 }
              else if ver = cs "1.1" then
                { flag := PARSE_URI_SUCCESS, inBuffer := str, fileName := fileName,
                  method := method, version := HTTP_11 }
              else
                { flag := PARSE_URI_ERROR, inBuffer := str, fileName := fileName,
                  method := method, version := version0 }

/-- Loop state of HttpData::parseHeaders: the persistent members hState_ and
headers_ together with the local variables key_start, key_end, value_start,
value_end (C++ int, initialised to -1 at every call), now_read_line_begin
(C++ int, initialised to 0) and notFinish.  On an early error return only
the members survive, but carrying the locals too is harmless since the
caller never reads them. -/
structure HLoop where
  hState : HParseState
  keyStart : Int
  keyEnd : Int
  valueStart : Int
  valueEnd : Int
  lineBegin : Int
  headers : Headers
  notFinish : Bool
deriving DecidableEq, Repr

/-- Extraction std::string(str.begin() + a, str.begin() + b) used by the
header parser when a complete key/value pair is stored. -/
def extractRange (str : Str) (a b : Int) : Str :=
  (str.drop a.toNat).take (b - a).toNat

/-- One iteration of the switch in HttpData::parseHeaders (HttpData.cpp
lines 566-639) on the character at absolute index i; an error result models
an early return PARSE_HEADER_ERROR (carrying the member state mutated so
far).  The comparison i - value_start > 255 is size_t arithmetic in the
source (i is size_t, value_start an int converted to size_t), transcribed
here with the same wrap. -/
def headersStep (str : Str) (c : Char) (i : Nat) (st : HLoop) : Except HLoop HLoop :=
  match st.hState with
  | H_START =>
    if c = '\n' ∨ c = '\r' then .ok st
    else .ok { st with hState := H_KEY, keyStart := toInt32 i, lineBegin := toInt32 i }
  | H_KEY =>
    if c = ':' then
      let st := { st with keyEnd := toInt32 i }
      if st.keyEnd - st.keyStart ≤ 0 then .error st
      else .ok { st with hState := H_COLON }
    else if c = '\n' ∨ c = '\r' then .error st
    else .ok st
  | H_COLON =>
    if c = ' ' then .ok { st with hState := H_SPACES_AFTER_COLON }
    else .error st
  | H_SPACES_AFTER_COLON =>
    .ok { st with hState := H_VALUE, valueStart := toInt32 i }
  | H_VALUE =>
    if c = '\r' then
      let st := { st with hState := H_CR, valueEnd := toInt32 i }
      if st.valueEnd - st.valueStart ≤ 0 then .error st else .ok st
    else if usub i (toUsize st.valueStart) > 255 then .error st
    else .ok st
  | H_CR =>
    if c = '\n' then
      let key := extractRange str st.keyStart st.keyEnd
      let value := extractRange str st.valueStart st.valueEnd
      .ok { st with hState := H_LF, headers := hinsert st.headers key value,
                    lineBegin := toInt32 i }
    else .error st
  | H_LF =>
    if c = '\r' then .ok { st with hState := H_END_CR }
    else .ok { st with hState := H_KEY, keyStart := toInt32 i }
  | H_END_CR =>
    if c = '\n' then .ok { st with hState := H_END_LF }
    else .error st
  | H_END_LF =>
    .ok { st with notFinish := false, keyStart := toInt32 i, lineBegin := toInt32 i }

/-- The character loop of HttpData::parseHeaders: for (; i < str.size() &&
notFinish; ++i).  The first argument is the whole buffer (used for key and
value extraction), the list argument is the remaining suffix from index i.
Returns the final loop state together with the final value of i, or the
state at an early error return. -/
def headersLoop (str : Str) : List Char → Nat → HLoop → Except HLoop (HLoop × Nat)
  | [], i, st => .ok (st, i)
  | c :: rest, i, st =>
    if st.notFinish = false then .ok (st, i)
    else
      match headersStep str c i st with
      | .error e => .error e
      | .ok st' => headersLoop str rest (i + 1) st'

/-- Loop state at the top of a parseHeaders call: hState_ and headers_ are
the member values carried over, the int locals start at -1 (positions) and
0 (now_read_line_begin). -/
def freshHLoop (hState0 : HParseState) (headers0 : Headers) : HLoop :=
  { hState := hState0, keyStart := -1, keyEnd := -1, valueStart := -1,
    valueEnd := -1, lineBegin := 0, headers := headers0, notFinish := true }

/-- Result record of HttpData::parseHeaders: the returned HeaderState with
the mutated members inBuffer_ (str), hState_ and headers_. -/
structure HeadersOut where
  flag : HeaderState
  inBuffer : Str
  hState : HParseState
  headers : Headers
deriving DecidableEq, Repr

/-- HttpData::parseHeaders (HttpData.cpp lines 560-647).  After the loop the
buffer is truncated: on completion (hState_ == H_END_LF) to str.substr(i),
otherwise to str.substr(now_read_line_begin) before returning "again". -/
def parseHeaders (str : Str) (hState0 : HParseState) (headers0 : Headers) : HeadersOut :=
  match headersLoop str str 0 (freshHLoop hState0 headers0) with
  | .error e => { flag := PARSE_HEADER_ERROR, inBuffer := str,
                  hState := e.hState, headers := e.headers }
  | .ok (st, i) =>
    if st.hState = H_END_LF then
      { flag := PARSE_HEADER_SUCCESS, inBuffer := str.drop i,
        hState := st.hState, headers := st.headers }
    else
      { flag := PARSE_HEADER_AGAIN, inBuffer := str.drop (toUsize st.lineBegin),
        hState := st.hState, headers := st.headers }

/-- MIME table of MimeType::init (HttpData.cpp lines 110-127), as an
association list in source insertion order; only lookup is observable. -/
def mimeTable : Headers :=
  [ (cs ".html", cs "text/html"),
    (cs ".avi", cs "video/x-msvideo"),
    (cs ".bmp", cs "image/bmp"),
    (cs ".c", cs "text/plain"),
    (cs ".doc", cs "application/msword"),
    (cs ".gif", cs "image/gif"),
    (cs ".gz", cs "application/x-gzip"),
    (cs ".htm", cs "text/html"),
    (cs ".ico", cs "image/x-icon"),
    (cs ".jpg", cs "image/jpeg"),
    (cs ".css", cs "text/css"),
    (cs ".js", cs "application/javascript"),
    (cs ".png", cs "image/png"),
    (cs ".txt", cs "text/plain"),
    (cs ".mp3", cs "audio/mp3"),
    (cs "default", cs "text/html") ]

/-- MimeType::getMime (HttpData.cpp lines 138-144): table lookup with
fallback to the "default" entry. -/
def MimeType.getMime (suffix : Str) : Str :=
  match hfind mimeTable suffix with
  | some v => v
  | none => (hfind mimeTable (cs "default")).getD []

/-- DEFAULT_KEEP_ALIVE_TIME (HttpData.cpp line 33): 5 minutes in ms. -/
def DEFAULT_KEEP_ALIVE_TIME : Nat := 300000

def favicon : List Char := [
  Char.ofNat 137, Char.ofNat 80, Char.ofNat 78, Char.ofNat 71, Char.ofNat 13, Char.ofNat 10, Char.ofNat 26, Char.ofNat 10, Char.ofNat 0, Char.ofNat 0, Char.ofNat 0, Char.ofNat 13, Char.ofNat 73, Char.ofNat 72, Char.ofNat 68,
  Char.ofNat 82, Char.ofNat 0, Char.ofNat 0, Char.ofNat 0, Char.ofNat 16, Char.ofNat 0, Char.ofNat 0, Char.ofNat 0, Char.ofNat 16, Char.ofNat 8, Char.ofNat 6, Char.ofNat 0, Char.ofNat 0, Char.ofNat 0, Char.ofNat 31,
  Char.ofNat 243, Char.ofNat 255, Char.ofNat 97, Char.ofNat 0, Char.ofNat 0, Char.ofNat 0, Char.ofNat 25, Char.ofNat 116, Char.ofNat 69, Char.ofNat 88, Char.ofNat 116, Char.ofNat 83, Char.ofNat 111, Char.ofNat 102, Char.ofNat 116,
  Char.ofNat 119, Char.ofNat 97, Char.ofNat 114, Char.ofNat 101, Char.ofNat 0, Char.ofNat 65, Char.ofNat 100, Char.ofNat 111, Char.ofNat 98, Char.ofNat 101, Char.ofNat 32, Char.ofNat 73, Char.ofNat 109, Char.ofNat 97, Char.ofNat 103,
  Char.ofNat 101, Char.ofNat 82, Char.ofNat 101, Char.ofNat 97, Char.ofNat 100, Char.ofNat 121, Char.ofNat 113, Char.ofNat 201, Char.ofNat 101, Char.ofNat 60, Char.ofNat 0, Char.ofNat 0, Char.ofNat 1, Char.ofNat 205, Char.ofNat 73,
  Char.ofNat 68, Char.ofNat 65, Char.ofNat 84, Char.ofNat 120, Char.ofNat 218, Char.ofNat 148, Char.ofNat 147, Char.ofNat 57, Char.ofNat 72, Char.ofNat 3, Char.ofNat 65, Char.ofNat 20, Char.ofNat 134, Char.ofNat 255, Char.ofNat 93,
  Char.ofNat 98, Char.ofNat 167, Char.ofNat 4, Char.ofNat 82, Char.ofNat 196, Char.ofNat 109, Char.ofNat 34, Char.ofNat 30, Char.ofNat 160, Char.ofNat 70, Char.ofNat 36, Char.ofNat 8, Char.ofNat 22, Char.ofNat 22, Char.ofNat 118,
  Char.ofNat 10, Char.ofNat 54, Char.ofNat 186, Char.ofNat 74, Char.ofNat 154, Char.ofNat 128, Char.ofNat 8, Char.ofNat 65, Char.ofNat 180, Char.ofNat 113, Char.ofNat 133, Char.ofNat 88, Char.ofNat 137, Char.ofNat 71, Char.ofNat 176,
  Char.ofNat 73, Char.ofNat 169, Char.ofNat 81, Char.ofNat 36, Char.ofNat 205, Char.ofNat 166, Char.ofNat 8, Char.ofNat 164, Char.ofNat 72, Char.ofNat 99, Char.ofNat 145, Char.ofNat 66, Char.ofNat 11, Char.ofNat 175, Char.ofNat 86,
  Char.ofNat 193, Char.ofNat 70, Char.ofNat 180, Char.ofNat 21, Char.ofNat 207, Char.ofNat 34, Char.ofNat 88, Char.ofNat 152, Char.ofNat 11, Char.ofNat 84, Char.ofNat 72, Char.ofNat 138, Char.ofNat 100, Char.ofNat 147, Char.ofNat 141,
  Char.ofNat 251, Char.ofNat 70, Char.ofNat 103, Char.ofNat 201, Char.ofNat 26, Char.ofNat 20, Char.ofNat 125, Char.ofNat 240, Char.ofNat 102, Char.ofNat 118, Char.ofNat 102, Char.ofNat 223, Char.ofNat 124, Char.ofNat 239, Char.ofNat 231,
  Char.ofNat 103, Char.ofNat 70, Char.ofNat 168, Char.ofNat 213, Char.ofNat 106, Char.ofNat 72, Char.ofNat 36, Char.ofNat 18, Char.ofNat 42, Char.ofNat 0, Char.ofNat 5, Char.ofNat 191, Char.ofNat 71, Char.ofNat 212, Char.ofNat 239,
  Char.ofNat 247, Char.ofNat 47, Char.ofNat 54, Char.ofNat 236, Char.ofNat 18, Char.ofNat 32, Char.ofNat 30, Char.ofNat 143, Char.ofNat 215, Char.ofNat 170, Char.ofNat 213, Char.ofNat 234, Char.ofNat 175, Char.ofNat 73, Char.ofNat 53,
  Char.ofNat 70, Char.ofNat 170, Char.ofNat 84, Char.ofNat 95, Char.ofNat 159, Char.ofNat 34, Char.ofNat 65, Char.ofNat 42, Char.ofNat 149, Char.ofNat 10, Char.ofNat 131, Char.ofNat 229, Char.ofNat 114, Char.ofNat 57, Char.ofNat 100,
  Char.ofNat 179, Char.ofNat 89, Char.ofNat 150, Char.ofNat 153, Char.ofNat 76, Char.ofNat 6, Char.ofNat 233, Char.ofNat 116, Char.ofNat 154, Char.ofNat 37, Char.ofNat 133, Char.ofNat 44, Char.ofNat 203, Char.ofNat 84, Char.ofNat 167,
  Char.ofNat 196, Char.ofNat 98, Char.ofNat 49, Char.ofNat 181, Char.ofNat 94, Char.ofNat 0, Char.ofNat 3, Char.ofNat 104, Char.ofNat 154, Char.ofNat 198, Char.ofNat 22, Char.ofNat 130, Char.ofNat 32, Char.ofNat 88, Char.ofNat 82,
  Char.ofNat 20, Char.ofNat 69, Char.ofNat 54, Char.ofNat 83, Char.ofNat 148, Char.ofNat 203, Char.ofNat 101, Char.ofNat 120, Char.ofNat 189, Char.ofNat 94, Char.ofNat 170, Char.ofNat 85, Char.ofNat 84, Char.ofNat 35, Char.ofNat 76,
  Char.ofNat 192, Char.ofNat 224, Char.ofNat 226, Char.ofNat 193, Char.ofNat 143, Char.ofNat 0, Char.ofNat 158, Char.ofNat 188, Char.ofNat 9, Char.ofNat 65, Char.ofNat 124, Char.ofNat 62, Char.ofNat 31, Char.ofNat 131, Char.ofNat 68,
  Char.ofNat 34, Char.ofNat 17, Char.ofNat 213, Char.ofNat 84, Char.ofNat 64, Char.ofNat 63, Char.ofNat 56, Char.ofNat 128, Char.ofNat 119, Char.ofNat 229, Char.ofNat 51, Char.ofNat 7, Char.ofNat 184, Char.ofNat 92, Char.ofNat 46,
  Char.ofNat 72, Char.ofNat 146, Char.ofNat 4, Char.ofNat 135, Char.ofNat 195, Char.ofNat 129, Char.ofNat 64, Char.ofNat 32, Char.ofNat 64, Char.ofNat 103, Char.ofNat 152, Char.ofNat 233, Char.ofNat 54, Char.ofNat 26, Char.ofNat 166,
  Char.ofNat 103, Char.ofNat 21, Char.ofNat 4, Char.ofNat 227, Char.ofNat 215, Char.ofNat 200, Char.ofNat 189, Char.ofNat 21, Char.ofNat 225, Char.ofNat 105, Char.ofNat 183, Char.ofNat 67, Char.ofNat 171, Char.ofNat 234, Char.ofNat 120,
  Char.ofNat 47, Char.ofNat 106, Char.ofNat 88, Char.ofNat 146, Char.ofNat 187, Char.ofNat 24, Char.ofNat 32, Char.ofNat 159, Char.ofNat 207, Char.ofNat 51, Char.ofNat 195, Char.ofNat 184, Char.ofNat 233, Char.ofNat 78, Char.ofNat 167,
  Char.ofNat 211, Char.ofNat 108, Char.ofNat 74, Char.ofNat 0, Char.ofNat 105, Char.ofNat 54, Char.ofNat 124, Char.ofNat 142, Char.ofNat 225, Char.ofNat 254, Char.ofNat 86, Char.ofNat 132, Char.ofNat 231, Char.ofNat 60, Char.ofNat 159,
  Char.ofNat 114, Char.ofNat 43, Char.ofNat 58, Char.ofNat 66, Char.ofNat 123, Char.ofNat 55, Char.ofNat 102, Char.ofNat 119, Char.ofNat 174, Char.ofNat 142, Char.ofNat 14, Char.ofNat 243, Char.ofNat 189, Char.ofNat 82, Char.ofNat 169,
  Char.ofNat 100, Char.ofNat 2, Char.ofNat 66, Char.ofNat 175, Char.ofNat 133, Char.ofNat 50, Char.ofNat 102, Char.ofNat 70, Char.ofNat 186, Char.ofNat 12, Char.ofNat 217, Char.ofNat 159, Char.ofNat 29, Char.ofNat 154, Char.ofNat 108,
  Char.ofNat 34, Char.ofNat 230, Char.ofNat 199, Char.ofNat 58, Char.ofNat 44, Char.ofNat 128, Char.ofNat 239, Char.ofNat 193, Char.ofNat 21, Char.ofNat 144, Char.ofNat 7, Char.ofNat 147, Char.ofNat 162, Char.ofNat 40, Char.ofNat 160,
  Char.ofNat 83, Char.ofNat 106, Char.ofNat 177, Char.ofNat 184, Char.ofNat 223, Char.ofNat 41, Char.ofNat 53, Char.ofNat 67, Char.ofNat 14, Char.ofNat 63, Char.ofNat 88, Char.ofNat 252, Char.ofNat 152, Char.ofNat 218, Char.ofNat 121,
  Char.ofNat 106, Char.ofNat 80, Char.ofNat 64, Char.ofNat 0, Char.ofNat 135, Char.ofNat 174, Char.ofNat 27, Char.ofNat 23, Char.ofNat 66, Char.ofNat 180, Char.ofNat 58, Char.ofNat 63, Char.ofNat 190, Char.ofNat 121, Char.ofNat 199,
  Char.ofNat 10, Char.ofNat 38, Char.ofNat 182, Char.ofNat 238, Char.ofNat 217, Char.ofNat 154, Char.ofNat 96, Char.ofNat 20, Char.ofNat 147, Char.ofNat 219, Char.ofNat 143, Char.ofNat 13, Char.ofNat 10, Char.ofNat 46, Char.ofNat 233,
  Char.ofNat 35, Char.ofNat 149, Char.ofNat 41, Char.ofNat 88, Char.ofNat 0, Char.ofNat 39, Char.ofNat 235, Char.ofNat 110, Char.ofNat 86, Char.ofNat 112, Char.ofNat 188, Char.ofNat 214, Char.ofNat 203, Char.ofNat 214, Char.ofNat 71,
  Char.ofNat 171, Char.ofNat 61, Char.ofNat 108, Char.ofNat 125, Char.ofNat 184, Char.ofNat 210, Char.ofNat 221, Char.ofNat 160, Char.ofNat 96, Char.ofNat 131, Char.ofNat 186, Char.ofNat 239, Char.ofNat 95, Char.ofNat 164, Char.ofNat 234,
  Char.ofNat 204, Char.ofNat 2, Char.ofNat 78, Char.ofNat 174, Char.ofNat 94, Char.ofNat 112, Char.ofNat 26, Char.ofNat 236, Char.ofNat 179, Char.ofNat 64, Char.ofNat 57, Char.ofNat 172, Char.ofNat 254, Char.ofNat 242, Char.ofNat 145,
  Char.ofNat 137, Char.ofNat 103, Char.ofNat 145, Char.ofNat 133, Char.ofNat 33, Char.ofNat 168, Char.ofNat 135, Char.ofNat 183, Char.ofNat 88, Char.ofNat 126, Char.ofNat 126, Char.ofNat 133, Char.ofNat 187, Char.ofNat 205, Char.ofNat 78,
  Char.ofNat 78, Char.ofNat 98, Char.ofNat 116, Char.ofNat 64, Char.ofNat 250, Char.ofNat 147, Char.ofNat 137, Char.ofNat 236, Char.ofNat 30, Char.ofNat 236, Char.ofNat 134, Char.ofNat 2, Char.ofNat 72, Char.ofNat 38, Char.ofNat 147,
  Char.ofNat 208, Char.ofNat 117, Char.ofNat 29, Char.ofNat 127, Char.ofNat 9, Char.ofNat 50, Char.ofNat 149, Char.ofNat 191, Char.ofNat 31, Char.ofNat 219, Char.ofNat 215, Char.ofNat 99, Char.ofNat 138, Char.ofNat 26, Char.ofNat 247,
  Char.ofNat 92, Char.ofNat 193, Char.ofNat 255, Char.ofNat 34, Char.ofNat 74, Char.ofNat 195, Char.ofNat 135, Char.ofNat 0, Char.ofNat 3, Char.ofNat 0, Char.ofNat 75, Char.ofNat 187, Char.ofNat 248, Char.ofNat 214, Char.ofNat 42,
  Char.ofNat 118, Char.ofNat 152, Char.ofNat 73, Char.ofNat 0, Char.ofNat 0, Char.ofNat 0, Char.ofNat 0, Char.ofNat 73, Char.ofNat 69, Char.ofNat 78, Char.ofNat 68, Char.ofNat 174, Char.ofNat 66, Char.ofNat 96, Char.ofNat 130]

/-- The MIME suffix lookup of HttpData::analysisRequest (HttpData.cpp lines
712-717): dot_pos is an int receiving fileName_.find (the FIRST dot); a
negative dot_pos selects the default entry, otherwise the suffix from that
first dot is looked up. -/
def requestFiletype (fileName : Str) : Str :=
  let dot_pos := toInt32 (strFindChar fileName '.' 0)
  if dot_pos < 0 then MimeType.getMime (cs "default")
  else MimeType.getMime (fileName.drop (toUsize dot_pos))

/-- The Connection header test of HttpData::analysisRequest (lines 705-707):
keep-alive is recognised on the two exact strings. -/
def connRequestsKeepAlive (headers : Headers) : Bool :=
  match hfind headers (cs "Connection") with
  | some v => v = cs "Keep-Alive" ∨ v = cs "keep-alive"
  | none => false

/-- Result of the stat/open/mmap sequence for a file name: st_size from a
successful stat, and the mapped bytes (none when open or mmap fails, two
failure modes with identical observable behaviour in the source). -/
structure FsEntry where
  st_size : Nat
  mapped : Option Str
deriving DecidableEq, Repr

/-- Filesystem oracle: stat failure is modelled by none. -/
abbrev Fs := Str → Option FsEntry

/-- Members of HttpData that the read-side state machine touches (HttpData.h):
buffers, parse cursors, state tags, parsed request data and flags. -/
structure HttpState where
  inBuffer : Str
  outBuffer : Str
  fileName : Str
  nowReadPos : Nat
  state : ProcessState
  hState : HParseState
  method : HttpMethod
  version : HttpVersion
  headers : Headers
  error : Bool
  keepAlive : Bool
deriving DecidableEq, Repr

/-- HttpData::analysisRequest (HttpData.cpp lines 675-773).  The POST branch
is entirely commented out in the source, so POST falls through to the final
return ANALYSIS_ERROR.  Returns the AnalysisState, the mutated members, and
the list of handleError emissions (error code with the short message passed
by the caller); handleError writes directly to the socket, bypassing
outBuffer_. -/
def analysisRequest (fs : Fs) (st : HttpState) : AnalysisState × HttpState × List (Nat × Str) :=
  if st.method = METHOD_POST then
    (ANALYSIS_ERROR, st, [])
  else if st.method = METHOD_GET ∨ st.method = METHOD_HEAD then
    let header := cs "HTTP/1.1 200 OK\r\n"
    let (st, header) :=
      if connRequestsKeepAlive st.headers then
        ({ st with keepAlive := true },
         header ++ cs "Connection: Keep-Alive\r\n" ++ cs "Keep-Alive: timeout=" ++
           natToStr DEFAULT_KEEP_ALIVE_TIME ++ cs "\r\n")
      else (st, header)
    let filetype := requestFiletype st.fileName
    if st.fileName = cs "hello" then
      let ob := cs "HTTP/1.1 200 OK\r\nContent-type: text/plain\r\n\r\nHello World"
      (ANALYSIS_SUCCESS, { st with outBuffer := ob }, [])
    else if st.fileName = cs "favicon.ico" then
      let header := header ++ cs "Content-Type: image/png\r\n" ++
        cs "Content-Length: " ++ natToStr 555 ++ cs "\r\n" ++
        cs "Server: LinYa's Web Server\r\n" ++ cs "\r\n"
      (ANALYSIS_SUCCESS,
       { st with outBuffer := st.outBuffer ++ header ++ favicon }, [])
    else
      match fs st.fileName with
      | none => (ANALYSIS_ERROR, st, [(404, cs "Not Found!")])
      | some entry =>
        let header := header ++ cs "Content-Type: " ++ filetype ++ cs "\r\n" ++
          cs "Content-Length: " ++ natToStr entry.st_size ++ cs "\r\n" ++
          cs "Server: LinYa's Web Server\r\n" ++ cs "\r\n"
        let st := { st with outBuffer := st.outBuffer ++ header }
        if st.method = METHOD_HEAD then (ANALYSIS_SUCCESS, st, [])
        else
          match entry.mapped with
          | none => (ANALYSIS_ERROR, { st with outBuffer := [] },
                     [(404, cs "Not Found!")])
          | some bytes =>
            (ANALYSIS_SUCCESS,
             { st with outBuffer := st.outBuffer ++ bytes.take entry.st_size }, [])
  else (ANALYSIS_ERROR, st, [])

/-- Outcome of the do-while body in HttpData::handleRead: the mutated member
state together with the handleError emissions of this invocation. -/
abbrev CascadeResult := HttpState × List (Nat × Str)

/-- The STATE_PARSE_URI block of HttpData::handleRead (lines 268-281):
parseURI, then break on "again", 400 plus buffer clear on error, or advance
to STATE_PARSE_HEADERS on success. -/
def stageURI (st : HttpState) : Except CascadeResult HttpState :=
  if st.state = STATE_PARSE_URI then
    let u := parseURI st.inBuffer st.fileName st.nowReadPos st.method st.version
    let st := { st with inBuffer := u.inBuffer, fileName := u.fileName,
                        method := u.method, version := u.version }
    match u.flag with
    | PARSE_URI_AGAIN => .error (st, [])
    | PARSE_URI_ERROR =>
      .error ({ st with inBuffer := [], error := true }, [(400, cs "Bad Request")])
    | PARSE_URI_SUCCESS => .ok { st with state := STATE_PARSE_HEADERS }
  else .ok st

/-- The STATE_PARSE_HEADERS block of HttpData::handleRead (lines 284-301):
parseHeaders, then break on "again", 400 on error, or advance to
STATE_RECV_BODY for POST and STATE_ANALYSIS otherwise. -/
def stageHeaders (st : HttpState) : Except CascadeResult HttpState :=
  if st.state = STATE_PARSE_HEADERS then
    let h := parseHeaders st.inBuffer st.hState st.headers
    let st := { st with inBuffer := h.inBuffer, hState := h.hState,
                        headers := h.headers }
    match h.flag with
    | PARSE_HEADER_AGAIN => .error (st, [])
    | PARSE_HEADER_ERROR =>
      .error ({ st with error := true }, [(400, cs "Bad Request")])
    | PARSE_HEADER_SUCCESS =>
      if st.method = METHOD_POST then .ok { st with state := STATE_RECV_BODY }
      else .ok { st with state := STATE_ANALYSIS }
  else .ok st

/-- The STATE_RECV_BODY block of HttpData::handleRead (lines 304-317): a
POST body requires a header with the exact key "Content-length"; without it
the error flag is set and 400 with the short message is emitted, otherwise
the block waits until the buffer holds Content-length bytes and then
advances to STATE_ANALYSIS. -/
def stageBody (st : HttpState) : Except CascadeResult HttpState :=
  if st.state = STATE_RECV_BODY then
    match hfind st.headers (cs "Content-length") with
    | some v =>
      let content_length := cppStoi v
      if toInt32 st.inBuffer.length < content_length then .error (st, [])
      else .ok { st with state := STATE_ANALYSIS }
    | none =>
      .error ({ st with error := true },
              [(400, cs "Bad Request: Lack of argument (Content-length)")])
  else .ok st

/-- The STATE_ANALYSIS block of HttpData::handleRead (lines 320-330):
analysisRequest, then STATE_FINISH on success or the error flag on
failure; both paths break out of the do-while. -/
def stageAnalysis (fs : Fs) (st : HttpState) : CascadeResult :=
  if st.state = STATE_ANALYSIS then
    let (flag, st, rs) := analysisRequest fs st
    match flag with
    | ANALYSIS_SUCCESS => ({ st with state := STATE_FINISH }, rs)
    | ANALYSIS_ERROR => ({ st with error := true }, rs)
  else (st, [])

/-- The do-while(false) cascade of HttpData::handleRead (HttpData.cpp lines
268-331), assuming the bytes are already in inBuffer_ and the connection is
healthy (read_num >= 0, zero = false): the four state blocks run in order,
each break short-circuiting the rest. -/
def handleReadCascade (fs : Fs) (st : HttpState) : CascadeResult :=
  match stageURI st with
  | .error r => r
  | .ok st =>
    match stageHeaders st with
    | .error r => r
    | .ok st =>
      match stageBody st with
      | .error r => r
      | .ok st => stageAnalysis fs st

/-- Member state of a freshly constructed HttpData (constructor, HttpData.cpp
lines 157-168) whose inBuffer_ already holds the given bytes. -/
def freshConn (buf : Str) : HttpState :=
  { inBuffer := buf, outBuffer := [], fileName := [], nowReadPos := 0,
    state := STATE_PARSE_URI, hState := H_START, method := METHOD_GET,
    version := HTTP_11, headers := [], error := false, keepAlive := false }

/-- epoll event bits used by Channel.h (from sys/epoll.h). -/
def EPOLLIN : Nat := 1

/-- epoll priority-readable bit. -/
def EPOLLPRI : Nat := 2

/-- epoll writable bit. -/
def EPOLLOUT : Nat := 4

/-- epoll error bit. -/
def EPOLLERR : Nat := 8

/-- epoll hang-up bit. -/
def EPOLLHUP : Nat := 16

/-- epoll peer-closed-write bit. -/
def EPOLLRDHUP : Nat := 8192

/-- The four callback slots a Channel can dispatch to. -/
inductive HandlerCall
  | readH
  | writeH
  | errorH
  | connH
deriving DecidableEq, Repr

/-- Channel::handleEvents (Channel.h lines 147-165).  The four parameters
are the attached callbacks modelled by their effect on the interest mask
events_ (each real handler mutates events_ through getEvents); the result
is the final interest mask together with the dispatch trace.  events_ is
zeroed on entry; the hang-up-without-readable case returns with the mask
cleared and no handler invoked; the error case invokes only the error
handler; otherwise the read handler runs when any of EPOLLIN, EPOLLPRI or
EPOLLRDHUP is returned, then the write handler when EPOLLOUT is returned,
and the post-event hook (connHandler) always runs last. -/
def handleEvents (onRead onWrite onError onConn : Nat → Nat)
    (revents : Nat) : Nat × List HandlerCall :=
  let events := 0
  if revents &&& EPOLLHUP ≠ 0 ∧ revents &&& EPOLLIN = 0 then (0, [])
  else if revents &&& EPOLLERR ≠ 0 then
    let _ := onError events
    (0, [HandlerCall.errorH])
  else
    let (events, t1) :=
      if revents &&& (EPOLLIN ||| EPOLLPRI ||| EPOLLRDHUP) ≠ 0 then
        (onRead events, [HandlerCall.readH])
      else (events, [])
    let (events, t2) :=
      if revents &&& EPOLLOUT ≠ 0 then (onWrite events, t1 ++ [HandlerCall.writeH])
      else (events, t1)
    (onConn events, t2 ++ [HandlerCall.connH])

/-- State of an EventLoop as seen by queueInLoop: the mutex-protected
pending-task queue and the number of 8-byte writes performed on the wakeup
descriptor. -/
structure LoopState (τ : Type) where
  pendingFunctors : List τ
  wakeupWrites : Nat
deriving DecidableEq, Repr

/-- EventLoop::queueInLoop (EventLoop.cpp lines 150-157): append the task to
pendingFunctors_ under the lock, then wakeup() iff the caller is not on the
loop's own thread or the loop is draining its queue
(callingPendingFunctors_). -/
def queueInLoop {τ : Type} (isInLoopThread callingPendingFunctors : Bool)
    (cb : τ) (st : LoopState τ) : LoopState τ :=
  let st := { st with pendingFunctors := st.pendingFunctors ++ [cb] }
  if !isInLoopThread || callingPendingFunctors then
    { st with wakeupWrites := st.wakeupWrites + 1 }
  else st

/-- State of an EventLoopThreadPool (EventLoopThreadPool.h): the base loop,
the worker loops filled in by start(), the thread count and the round-robin
cursor next_. -/
structure PoolState (Loop : Type) where
  baseLoop : Loop
  loops : List Loop
  numThreads : Nat
  next : Nat

/-- EventLoopThreadPool::getNextLoop (EventLoopThreadPool.cpp lines 59-68):
the base loop when the pool is empty, otherwise loops_[next_] with
next_ = (next_ + 1) % numThreads_. -/
def getNextLoop {Loop : Type} (p : PoolState Loop) : Loop × PoolState Loop :=
  if p.loops.isEmpty then (p.baseLoop, p)
  else (p.loops.getD p.next p.baseLoop,
        { p with next := (p.next + 1) % p.numThreads })

/-- The sequence of loops handed out by n successive getNextLoop calls
(one per accepted connection in Server::handNewConn). -/
def servedLoops {Loop : Type} (p : PoolState Loop) : Nat → List Loop
  | 0 => []
  | n + 1 =>
    let (l, p') := getNextLoop p
    l :: servedLoops p' n

/-- Modelled from the spec words of claim C3 ("the suffix starting at the
final dot"): the last extension of a target name, for comparison against
the lookup the code performs. -/
def specLastExtension (name : Str) : Str :=
  match name.reverse.findIdx? (fun c => c = '.') with
  | some j => name.drop (name.length - 1 - j)
  | none => cs "default"

/-- Modelled from the spec words of claims C2 and C3: the index of the
first occurrence of a character, as a plain option with no unsigned
arithmetic. -/
def specFirstIdx (name : Str) (c : Char) : Option Nat :=
  match name with
  | [] => none
  | x :: t => if x = c then some 0 else (specFirstIdx t c).map (· + 1)

/-- Claim C5: a POST request that reaches the body-reception state with no
header stored under the exact key "Content-length" (the canonical
"Content-Length" does not match the case-sensitive map) sets the error
flag, answers 400 with the short message "Bad Request: Lack of argument
(Content-length)", and leaves the top-level state at STATE_RECV_BODY, so
it never advances to STATE_ANALYSIS. -/
theorem c5_post_without_content_length_400 (fs : Fs) (st : HttpState)
    (hstate : st.state = STATE_RECV_BODY)
    (_hmethod : st.method = METHOD_POST)
    (hnone : hfind st.headers (cs "Content-length") = none) :
    handleReadCascade fs st =
      ({ st with error := true },
       [(400, cs "Bad Request: Lack of argument (Content-length)")])
    ∧ (handleReadCascade fs st).1.state = STATE_RECV_BODY := by
  have h1 : handleReadCascade fs st =
      ({ st with error := true },
       [(400, cs "Bad Request: Lack of argument (Content-length)")]) := by
    simp [handleReadCascade, stageURI, stageHeaders, stageBody, hstate, hnone]
  exact ⟨h1, by rw [h1]; simpa using hstate⟩

/-- Claim C5 witness: a concrete POST connection in the body-reception
state whose map holds only the canonical key "Content-Length" (which must
not count) is answered 400 with the expected message. -/
theorem c5_post_without_content_length_400_witness :
    handleReadCascade (fun _ => none)
      { freshConn (cs "xyz") with
          state := STATE_RECV_BODY,
          method := METHOD_POST,
          headers := [(cs "Content-Length", cs "3")] } =
      ({ freshConn (cs "xyz") with
           state := STATE_RECV_BODY,
           method := METHOD_POST,
           headers := [(cs "Content-Length", cs "3")],
           error := true },
       [(400, cs "Bad Request: Lack of argument (Content-length)")]) :=
  (c5_post_without_content_length_400 (fun _ => none) _ rfl rfl (by decide)).1

/-- Claim C6: dispatch order of Channel::handleEvents on one notification:
with the hang-up bit and no readable bit the interest mask is cleared and
no handler runs; otherwise with the error bit only the error handler runs;
otherwise the read handler runs iff one of the readable, priority-readable
or peer-closed-write bits is set, then the write handler iff the writable
bit is set, and the post-event hook always runs last. -/
theorem c6_channel_dispatch_order (onRead onWrite onError onConn : Nat → Nat)
    (revents : Nat) :
    (revents &&& EPOLLHUP ≠ 0 ∧ revents &&& EPOLLIN = 0 →
      handleEvents onRead onWrite onError onConn revents = (0, []))
    ∧ (¬(revents &&& EPOLLHUP ≠ 0 ∧ revents &&& EPOLLIN = 0) →
        revents &&& EPOLLERR ≠ 0 →
        (handleEvents onRead onWrite onError onConn revents).2 = [HandlerCall.errorH])
    ∧ (¬(revents &&& EPOLLHUP ≠ 0 ∧ revents &&& EPOLLIN = 0) →
        revents &&& EPOLLERR = 0 →
        (handleEvents onRead onWrite onError onConn revents).2 =
          (if revents &&& (EPOLLIN ||| EPOLLPRI ||| EPOLLRDHUP) ≠ 0
            then [HandlerCall.readH] else []) ++
          (if revents &&& EPOLLOUT ≠ 0 then [HandlerCall.writeH] else []) ++
          [HandlerCall.connH]) := by
  unfold handleEvents
  refine ⟨fun h => by simp [h], fun h he => by simp [h, he], fun h he => ?_⟩
  simp only [h, if_false, he, ne_eq, not_true_eq_false]
  split <;> split <;> simp_all

/-- Claim C6 witness: a notification carrying both the readable and the
writable bit dispatches the read handler, then the write handler, then the
post-event hook. -/
theorem c6_channel_dispatch_order_witness :
    (handleEvents id id id id (EPOLLIN + EPOLLOUT)).2 =
      (if (EPOLLIN + EPOLLOUT) &&& (EPOLLIN ||| EPOLLPRI ||| EPOLLRDHUP) ≠ 0
        then [HandlerCall.readH] else []) ++
      (if (EPOLLIN + EPOLLOUT) &&& EPOLLOUT ≠ 0 then [HandlerCall.writeH] else []) ++
      [HandlerCall.connH] :=
  (c6_channel_dispatch_order id id id id (EPOLLIN + EPOLLOUT)).2.2
    (by decide) (by decide)

/-- Claim C7: EventLoop::queueInLoop appends the task to the pending queue
and then writes the wakeup descriptor exactly when the caller is not on the
loop's thread or the loop is draining its queue; queueing from the loop
thread outside a drain performs no wakeup write. -/
theorem c7_queue_in_loop_wakeup {τ : Type} (isInLoopThread callingPendingFunctors : Bool)
    (cb : τ) (st : LoopState τ) :
    (queueInLoop isInLoopThread callingPendingFunctors cb st).pendingFunctors =
        st.pendingFunctors ++ [cb]
    ∧ ((queueInLoop isInLoopThread callingPendingFunctors cb st).wakeupWrites =
          st.wakeupWrites + 1 ↔
        (isInLoopThread = false ∨ callingPendingFunctors = true))
    ∧ (isInLoopThread = true → callingPendingFunctors = false →
        (queueInLoop isInLoopThread callingPendingFunctors cb st).wakeupWrites =
          st.wakeupWrites) := by
  unfold queueInLoop
  cases isInLoopThread <;> cases callingPendingFunctors <;> simp

/-- Claim C7 witness: queueing one task from the loop thread outside a
drain grows the queue and leaves the wakeup write count unchanged. -/
theorem c7_queue_in_loop_wakeup_witness :
    (queueInLoop true false (0 : Nat) ⟨[], 0⟩).pendingFunctors = [] ++ [0]
    ∧ (queueInLoop true false (0 : Nat) ⟨[], 0⟩).wakeupWrites = 0 :=
  ⟨(c7_queue_in_loop_wakeup true false 0 ⟨[], 0⟩).1,
   (c7_queue_in_loop_wakeup true false 0 ⟨[], 0⟩).2.2 rfl rfl⟩

/-- Claim C9: for a GET or HEAD request whose target is exactly "hello",
analysisRequest assigns the outbound buffer to the fixed response string
(discarding whatever the buffer held, including the header block built in
the same call), emits nothing, succeeds, and keeps the keep-alive flag set
earlier in the call (setting it when the request carried Connection:
Keep-Alive or keep-alive). -/
theorem c9_hello_fixed_response (fs : Fs) (st : HttpState)
    (hm : st.method = METHOD_GET ∨ st.method = METHOD_HEAD)
    (hf : st.fileName = cs "hello") :
    analysisRequest fs st =
      (ANALYSIS_SUCCESS,
       { st with
         keepAlive := if connRequestsKeepAlive st.headers then true else st.keepAlive,
         outBuffer := cs "HTTP/1.1 200 OK\r\nContent-type: text/plain\r\n\r\nHello World" },
       []) := by
  have hpost : ¬ st.method = METHOD_POST := by
    rcases hm with h | h <;> rw [h] <;> simp
  by_cases hka : connRequestsKeepAlive st.headers <;>
    simp [analysisRequest, hpost, hm, hf, hka]

/-- Claim C9 witness: a GET for "hello" with Connection: Keep-Alive and a
junk outbound buffer ends with exactly the fixed response bytes and the
keep-alive flag on. -/
theorem c9_hello_fixed_response_witness :
    analysisRequest (fun _ => none)
      { freshConn [] with
          state := STATE_ANALYSIS,
          method := METHOD_GET,
          fileName := cs "hello",
          headers := [(cs "Connection", cs "Keep-Alive")],
          outBuffer := cs "JUNK" } =
      (ANALYSIS_SUCCESS,
       { freshConn [] with
           state := STATE_ANALYSIS,
           method := METHOD_GET,
           fileName := cs "hello",
           headers := [(cs "Connection", cs "Keep-Alive")],
           keepAlive := true,
           outBuffer := cs "HTTP/1.1 200 OK\r\nContent-type: text/plain\r\n\r\nHello World" },
       []) := by
  have h := c9_hello_fixed_response (fun _ => none)
    { freshConn [] with
        state := STATE_ANALYSIS,
        method := METHOD_GET,
        fileName := cs "hello",
        headers := [(cs "Connection", cs "Keep-Alive")],
        outBuffer := cs "JUNK" } (Or.inl rfl) rfl
  simpa [connRequestsKeepAlive, hfind, cs] using h

/-- Claim C1 (code evaluation at the failing input): for the exact request
bytes "HEAD /favicon.ico HTTP/1.1\r\n\r\n" the read cascade produces no
response at all - the empty header block is consumed by the H_START state
of the header machine, which skips every CR and LF, so parseHeaders keeps
returning "again" and nothing is appended to the outbound buffer; and for
the variant carrying one header (which does complete) the 200 header block
with Content-Length: 555 and Content-Type: image/png is followed by the
555 favicon body bytes, because the favicon branch of analysisRequest runs
before the HEAD early return.  Both contradict the claim of a header-only
response with zero body bytes. -/
theorem c1_head_favicon_eval (fs : Fs) :
    (handleReadCascade fs (freshConn (cs "HEAD /favicon.ico HTTP/1.1\r\n\r\n"))).1.outBuffer = []
    ∧ (handleReadCascade fs (freshConn (cs "HEAD /favicon.ico HTTP/1.1\r\n\r\n"))).1.state =
        STATE_PARSE_HEADERS
    ∧ (handleReadCascade fs (freshConn (cs "HEAD /favicon.ico HTTP/1.1\r\n\r\n"))).2 = []
    ∧ (handleReadCascade fs
        (freshConn (cs "HEAD /favicon.ico HTTP/1.1\r\nHost: x\r\n\r\n"))).1.outBuffer =
        cs "HTTP/1.1 200 OK\r\nContent-Type: image/png\r\nContent-Length: 555\r\nServer: LinYa's Web Server\r\n\r\n"
          ++ favicon
    ∧ (handleReadCascade fs
        (freshConn (cs "HEAD /favicon.ico HTTP/1.1\r\nHost: x\r\n\r\n"))).1.method =
        METHOD_HEAD
    ∧ (handleReadCascade fs
        (freshConn (cs "HEAD /favicon.ico HTTP/1.1\r\nHost: x\r\n\r\n"))).1.state =
        STATE_FINISH
    ∧ favicon.length = 555 :=
  ⟨rfl, rfl, rfl, rfl, rfl, rfl, rfl⟩

/-- Claim C2 (code evaluation at the failing input): the buffer
"GET /x HTTP/1.1" contains no carriage return at or after read position 0,
yet parseURI returns PARSE_URI_SUCCESS, not PARSE_URI_AGAIN - the source's
test pos < 0 is on a size_t and can never fire - and the read cascade
advances the top-level state past ParseRequestLine to ParseHeaders. -/
theorem c2_no_cr_still_parses (fs : Fs) :
    strFindChar (cs "GET /x HTTP/1.1") '\r' 0 = npos
    ∧ specFirstIdx (cs "GET /x HTTP/1.1") '\r' = none
    ∧ (parseURI (cs "GET /x HTTP/1.1") [] 0 METHOD_GET HTTP_11).flag = PARSE_URI_SUCCESS
    ∧ (parseURI (cs "GET /x HTTP/1.1") [] 0 METHOD_GET HTTP_11).flag ≠ PARSE_URI_AGAIN
    ∧ (handleReadCascade fs (freshConn (cs "GET /x HTTP/1.1"))).1.state = STATE_PARSE_HEADERS
    ∧ (handleReadCascade fs (freshConn (cs "GET /x HTTP/1.1"))).1.error = false :=
  ⟨rfl, rfl, rfl, by decide, rfl, rfl⟩

/-- Claim C3, counterexample: the response MIME lookup of analysisRequest
uses the suffix from the FIRST dot (fileName_.find), not the last: for the
target "a.tar.gz" the suffix handed to the table is ".tar.gz", which falls
back to the default text/html, so the lookup result differs from the one
the claim requires for the last extension ".gz". -/
theorem c3_first_dot_counterexample :
    specLastExtension (cs "a.tar.gz") = cs ".gz"
    ∧ MimeType.getMime (cs ".gz") = cs "application/x-gzip"
    ∧ requestFiletype (cs "a.tar.gz") = cs "text/html"
    ∧ requestFiletype (cs "a.tar.gz") ≠
        MimeType.getMime (specLastExtension (cs "a.tar.gz")) := by
  refine ⟨by decide, rfl, rfl, by decide⟩

/-- Splitting the header loop at a prefix: if running the loop over a
prefix ends normally with the loop still live, running it over the whole
list continues from the reached state and index. -/
theorem headersLoop_append_ok {str : Str} {xs : List Char} {i : Nat}
    {st st' : HLoop} {j : Nat} (ys : List Char)
    (h : headersLoop str xs i st = .ok (st', j))
    (hnf : st'.notFinish = true) :
    headersLoop str (xs ++ ys) i st = headersLoop str ys j st' := by
  induction xs generalizing i st with
  | nil =>
    simp only [headersLoop] at h
    obtain ⟨rfl, rfl⟩ : st = st' ∧ i = j := by
      cases h; exact ⟨rfl, rfl⟩
    simp
  | cons x xs ih =>
    rw [List.cons_append]
    by_cases hf : st.notFinish = false
    · simp only [headersLoop, hf, if_true, reduceIte] at h
      obtain ⟨rfl, rfl⟩ : st = st' ∧ i = j := by
        cases h; exact ⟨rfl, rfl⟩
      rw [hnf] at hf
      cases hf
    · simp only [headersLoop, hf, if_false, reduceIte] at h ⊢
      cases hs : headersStep str x i st with
      | error e => rw [hs] at h; cases h
      | ok st2 =>
        rw [hs] at h
        exact ih h

/-- Claim C10: in header parsing the character immediately after a key's
colon must be exactly one space - whenever the sub-machine stands in
H_COLON and the next character is anything else, parseHeaders returns a
parse error (and the read cascade answers such a request with 400) - and
the stored value starts at the very next character after that single
space, so additional leading spaces are preserved: the concrete line
"K:   ab" (three spaces) stores the value "  ab". -/
theorem c10_colon_single_space (fs : Fs) (pre suffix : List Char) (c : Char)
    (headers0 : Headers) (st' : HLoop) (j : Nat)
    (hrun : headersLoop (pre ++ c :: suffix) pre 0 (freshHLoop H_START headers0) =
      .ok (st', j))
    (hcolon : st'.hState = H_COLON)
    (hnf : st'.notFinish = true)
    (hc : ¬ c = ' ') :
    (parseHeaders (pre ++ c :: suffix) H_START headers0).flag = PARSE_HEADER_ERROR
    ∧ (parseHeaders (cs "K:   ab\r\n\r\n") H_START []).headers = [(cs "K", cs "  ab")]
    ∧ (parseHeaders (cs "K:   ab\r\n\r\n") H_START []).flag = PARSE_HEADER_SUCCESS
    ∧ (handleReadCascade fs (freshConn (cs "GET / HTTP/1.1\r\nK:x\r\n\r\n"))).2 =
        [(400, cs "Bad Request")]
    ∧ (handleReadCascade fs (freshConn (cs "GET / HTTP/1.1\r\nK:x\r\n\r\n"))).1.error = true := by
  refine ⟨?_, rfl, rfl, rfl, rfl⟩
  unfold parseHeaders
  rw [headersLoop_append_ok (c :: suffix) hrun hnf]
  simp [headersLoop, headersStep, hnf, hcolon, hc]

/-- Claim C10 witness: after the prefix "K:" the sub-machine stands in
H_COLON, and the non-space character x there makes parseHeaders fail. -/
theorem c10_colon_single_space_witness :
    (parseHeaders (cs "K:" ++ 'x' :: []) H_START []).flag = PARSE_HEADER_ERROR
    ∧ (parseHeaders (cs "K:   ab\r\n\r\n") H_START []).headers = [(cs "K", cs "  ab")] := by
  have h := c10_colon_single_space (fun _ => none) (cs "K:") [] 'x' []
    { hState := H_COLON, keyStart := 0, keyEnd := 1, valueStart := -1,
      valueEnd := -1, lineBegin := 0, headers := [], notFinish := true } 2
    rfl rfl rfl (by decide)
  exact ⟨h.1, h.2.1⟩

/-- toInt32 is the identity below 2^31. -/
theorem toInt32_small {n : Nat} (h : n < 2147483648) : toInt32 n = n := by
  unfold toInt32
  rw [Nat.mod_eq_of_lt (by omega)]
  simp [h]

/-- toUsize is the identity on natural numbers below 2^64. -/
theorem toUsize_coe {n : Nat} (h : n < USIZE_MOD) : toUsize (n : Int) = n := by
  unfold toUsize
  rw [Int.emod_eq_of_lt (by positivity) (by exact_mod_cast h)]
  simp

/-- Wrapping size_t subtraction agrees with truncated subtraction when the
subtrahend is no larger and no wrap occurs. -/
theorem usub_exact {a b : Nat} (hba : b ≤ a) (ha : a < USIZE_MOD) :
    usub a b = a - b := by
  unfold usub
  rw [Nat.mod_eq_of_lt (lt_of_le_of_lt hba ha)]
  have h1 : a + USIZE_MOD - b = USIZE_MOD + (a - b) := by omega
  rw [h1, Nat.add_mod_left, Nat.mod_eq_of_lt (by omega)]

/-- Any entry of the map after an insertion was already present or is the
inserted pair. -/
theorem hinsert_mem {m : Headers} {k v : Str} {p : Str × Str}
    (h : p ∈ hinsert m k v) : p ∈ m ∨ p = (k, v) := by
  unfold hinsert at h
  split at h
  · rcases List.mem_map.1 h with ⟨q, hq, hpq⟩
    by_cases hk : q.1 = k
    · right; rw [if_pos hk] at hpq; exact hpq.symm
    · left; rw [if_neg hk] at hpq; exact hpq ▸ hq
  · rcases List.mem_append.1 h with h | h
    · exact Or.inl h
    · right; simpa using h

/-- Invariant of the header loop used for the value-length bound: every
entry stored so far was in the base map or has a value of at most 256
bytes; in H_VALUE the value start is a real position at most 256 behind
the cursor; in H_CR the recorded value extent is at most 256. -/
def HInv (base : Headers) (i : Nat) (st : HLoop) : Prop :=
  (∀ p ∈ st.headers, p ∈ base ∨ p.2.length ≤ 256)
  ∧ (st.hState = H_VALUE →
      0 ≤ st.valueStart ∧ st.valueStart ≤ (i : Int) ∧ (i : Int) - st.valueStart ≤ 256)
  ∧ (st.hState = H_CR → st.valueEnd - st.valueStart ≤ 256)

/-- Running the header loop from any state satisfying the invariant (with
the cursor bounded so the int truncations are exact) keeps every stored
value at 256 bytes or less, on the normal exit and on the error exit
alike. -/
theorem headersLoop_bounded (str : Str) (base : Headers) :
    ∀ (rest : List Char) (i : Nat) (st : HLoop),
      i + rest.length ≤ 2147483647 →
      HInv base i st →
      ∀ p ∈ (match headersLoop str rest i st with
             | .ok (st', _) => st'.headers
             | .error e => e.headers),
        p ∈ base ∨ p.2.length ≤ 256 := by
  intro rest
  induction rest with
  | nil =>
    intro i st _ hinv
    simpa [headersLoop] using hinv.1
  | cons c rest ih =>
    intro i st hb hinv
    have hi : i < 2147483648 := by
      have := hb
      simp only [List.length_cons] at this
      omega
    have hb2 : (i + 1) + rest.length ≤ 2147483647 := by
      have := hb
      simp only [List.length_cons] at this
      omega
    by_cases hf : st.notFinish = false
    · simpa [headersLoop, hf] using hinv.1
    · rw [headersLoop]
      rw [if_neg hf]
      cases hst : st.hState with
      | H_START =>
        by_cases hc : c = '\n' ∨ c = '\r'
        · have hs : headersStep str c i st = .ok st := by
            simp [headersStep, hst, hc]
          rw [hs]
          exact ih (i + 1) st hb2 ⟨hinv.1, by simp [hst], by simp [hst]⟩
        · have hs : headersStep str c i st =
              .ok { st with hState := H_KEY, keyStart := toInt32 i,
                            lineBegin := toInt32 i } := by
            simp [headersStep, hst, hc]
          rw [hs]
          exact ih (i + 1) _ hb2 ⟨hinv.1, by simp, by simp⟩
      | H_KEY =>
        by_cases hc : c = ':'
        · by_cases hke : ({ st with keyEnd := toInt32 i } : HLoop).keyEnd - st.keyStart ≤ 0
          · have hs : headersStep str c i st = .error { st with keyEnd := toInt32 i } := by
              simp only [headersStep, hst]
              rw [if_pos hc, if_pos hke]
            rw [hs]
            exact fun p hp => hinv.1 p hp
          · have hs : headersStep str c i st =
                .ok { st with keyEnd := toInt32 i, hState := H_COLON } := by
              simp only [headersStep, hst]
              rw [if_pos hc, if_neg hke]
            rw [hs]
            exact ih (i + 1) _ hb2 ⟨hinv.1, by simp, by simp⟩
        · by_cases hcr : c = '\n' ∨ c = '\r'
          · have hs : headersStep str c i st = .error st := by
              simp [headersStep, hst, hc, hcr]
            rw [hs]
            exact fun p hp => hinv.1 p hp
          · have hs : headersStep str c i st = .ok st := by
              simp [headersStep, hst, hc, hcr]
            rw [hs]
            exact ih (i + 1) st hb2 ⟨hinv.1, by simp [hst], by simp [hst]⟩
      | H_COLON =>
        by_cases hc : c = ' '
        · have hs : headersStep str c i st =
              .ok { st with hState := H_SPACES_AFTER_COLON } := by
            simp [headersStep, hst, hc]
          rw [hs]
          exact ih (i + 1) _ hb2 ⟨hinv.1, by simp, by simp⟩
        · have hs : headersStep str c i st = .error st := by
            simp [headersStep, hst, hc]
          rw [hs]
          exact fun p hp => hinv.1 p hp
      | H_SPACES_AFTER_COLON =>
        have hs : headersStep str c i st =
            .ok { st with hState := H_VALUE, valueStart := toInt32 i } := by
          simp [headersStep, hst]
        rw [hs]
        refine ih (i + 1) _ hb2 ⟨hinv.1, ?_, by simp⟩
        intro _
        rw [toInt32_small hi]
        refine ⟨by positivity, by simp, by push_cast; omega⟩
      | H_VALUE =>
        obtain ⟨hv0, hvle, hv256⟩ := hinv.2.1 hst
        have hvnat : st.valueStart = ((st.valueStart.toNat : Nat) : Int) :=
          (Int.toNat_of_nonneg hv0).symm
        by_cases hc : c = '\r'
        · by_cases hve : ({ st with hState := H_CR, valueEnd := toInt32 i } : HLoop).valueEnd -
              st.valueStart ≤ 0
          · have hs : headersStep str c i st =
                .error { st with hState := H_CR, valueEnd := toInt32 i } := by
              simp only [headersStep, hst]
              rw [if_pos hc, if_pos hve]
            rw [hs]
            exact fun p hp => hinv.1 p hp
          · have hs : headersStep str c i st =
                .ok { st with hState := H_CR, valueEnd := toInt32 i } := by
              simp only [headersStep, hst]
              rw [if_pos hc, if_neg hve]
            rw [hs]
            refine ih (i + 1) _ hb2 ⟨hinv.1, by simp, ?_⟩
            intro _
            simp only
            rw [toInt32_small hi]
            omega
        · by_cases hu : usub i (toUsize st.valueStart) > 255
          · have hs : headersStep str c i st = .error st := by
              simp [headersStep, hst, hc, hu]
            rw [hs]
            exact fun p hp => hinv.1 p hp
          · have hs : headersStep str c i st = .ok st := by
              simp [headersStep, hst, hc, hu]
            rw [hs]
            have htn : st.valueStart.toNat ≤ i := by omega
            have husub : usub i (toUsize st.valueStart) = i - st.valueStart.toNat := by
              rw [hvnat, toUsize_coe (by unfold USIZE_MOD; omega)]
              exact usub_exact htn (by unfold USIZE_MOD; omega)
            rw [husub] at hu
            refine ih (i + 1) st hb2 ⟨hinv.1, ?_, by simp [hst]⟩
            intro _
            refine ⟨hv0, by omega, by omega⟩
      | H_CR =>
        obtain hcr256 := hinv.2.2 hst
        by_cases hc : c = '\n'
        · have hs : headersStep str c i st =
              .ok { st with
                      hState := H_LF,
                      headers := hinsert st.headers (extractRange str st.keyStart st.keyEnd) (extractRange str st.valueStart st.valueEnd),
                      lineBegin := toInt32 i } := by
            simp [headersStep, hst, hc]
          rw [hs]
          refine ih (i + 1) _ hb2 ⟨?_, by simp, by simp⟩
          intro p hp
          rcases hinsert_mem hp with hold | hnew
          · exact hinv.1 p hold
          · right
            rw [hnew]
            simp only [extractRange, List.length_take]
            have : (st.valueEnd - st.valueStart).toNat ≤ 256 := by omega
            omega
        · have hs : headersStep str c i st = .error st := by
            simp [headersStep, hst, hc]
          rw [hs]
          exact fun p hp => hinv.1 p hp
      | H_LF =>
        by_cases hc : c = '\r'
        · have hs : headersStep str c i st = .ok { st with hState := H_END_CR } := by
            simp [headersStep, hst, hc]
          rw [hs]
          exact ih (i + 1) _ hb2 ⟨hinv.1, by simp, by simp⟩
        · have hs : headersStep str c i st =
              .ok { st with hState := H_KEY, keyStart := toInt32 i } := by
            simp [headersStep, hst, hc]
          rw [hs]
          exact ih (i + 1) _ hb2 ⟨hinv.1, by simp, by simp⟩
      | H_END_CR =>
        by_cases hc : c = '\n'
        · have hs : headersStep str c i st = .ok { st with hState := H_END_LF } := by
            simp [headersStep, hst, hc]
          rw [hs]
          exact ih (i + 1) _ hb2 ⟨hinv.1, by simp, by simp⟩
        · have hs : headersStep str c i st = .error st := by
            simp [headersStep, hst, hc]
          rw [hs]
          exact fun p hp => hinv.1 p hp
      | H_END_LF =>
        have hs : headersStep str c i st =
            .ok { st with notFinish := false, keyStart := toInt32 i,
                          lineBegin := toInt32 i } := by
          simp [headersStep, hst]
        rw [hs]
        exact ih (i + 1) _ hb2 ⟨hinv.1, by simp [hst], by simp [hst]⟩

/-- Claim C4, counterexample: a header line whose value is exactly 256
bytes - longer than 255 - parses successfully and the 256-byte value is
stored in the header map, because the length guard in H_VALUE is never
evaluated on the carriage-return character that terminates the value. -/
theorem c4_value_256_stored_counterexample :
    (parseHeaders (cs "K: " ++ List.replicate 256 'a' ++ cs "\r\n\r\n")
        H_START []).flag = PARSE_HEADER_SUCCESS
    ∧ hfind (parseHeaders (cs "K: " ++ List.replicate 256 'a' ++ cs "\r\n\r\n")
        H_START []).headers (cs "K") = some (List.replicate 256 'a')
    ∧ 255 < (List.replicate 256 'a').length := by
  refine ⟨rfl, rfl, by simp⟩

/-- Claim C4 as amended: the boundary is one byte later than claimed - a
header value longer than 256 bytes is a parse error (shown at 257), and
a value of 257 bytes or more is never stored: every entry of the map
after a parseHeaders call from the fresh header state was either already
present or has a value of at most 256 bytes. -/
theorem c4_value_bound_amended :
    (∀ (s : Str) (headers0 : Headers), s.length ≤ 2147483647 →
      ∀ p ∈ (parseHeaders s H_START headers0).headers,
        p ∈ headers0 ∨ p.2.length ≤ 256)
    ∧ (parseHeaders (cs "K: " ++ List.replicate 257 'a' ++ cs "\r\n\r\n")
        H_START []).flag = PARSE_HEADER_ERROR := by
  constructor
  · intro s headers0 hlen p hp
    have hinv0 : HInv headers0 0 (freshHLoop H_START headers0) := by
      refine ⟨fun q hq => Or.inl hq, ?_, ?_⟩ <;> simp [freshHLoop]
    have hmain := headersLoop_bounded s headers0 s 0 (freshHLoop H_START headers0)
      (by simpa using hlen) hinv0
    have hh : (parseHeaders s H_START headers0).headers =
        match headersLoop s s 0 (freshHLoop H_START headers0) with
        | .ok (st, _) => st.headers
        | .error e => e.headers := by
      unfold parseHeaders
      cases headersLoop s s 0 (freshHLoop H_START headers0) with
      | error e => rfl
      | ok r =>
        obtain ⟨st, i⟩ := r
        by_cases hend : st.hState = H_END_LF
        · simp [hend]
        · simp [hend]
    rw [hh] at hp
    exact hmain p hp
  · rfl

/-- Claim C4 witness for the amended bound: the single stored pair of a
small concrete parse satisfies the disjunction. -/
theorem c4_value_bound_amended_witness :
    (cs "A", cs "b") ∈ ([] : Headers) ∨ (cs "b").length ≤ 256 :=
  c4_value_bound_amended.1 (cs "A: b\r\n\r\n") [] (by decide)
    (cs "A", cs "b") (by decide)

/-- The size_t scan of std::string::find agrees with the plain first-index
function: either the character is absent and the scan yields npos, or the
scan yields the offset shifted by the base index, with the offset inside
the list. -/
theorem goFindChar_spec (c : Char) :
    ∀ (l : List Char) (i : Nat),
      (specFirstIdx l c = none ∧ goFindChar c l i = npos)
      ∨ (∃ j, specFirstIdx l c = some j ∧ goFindChar c l i = i + j ∧ j < l.length) := by
  intro l
  induction l with
  | nil => intro i; left; exact ⟨rfl, rfl⟩
  | cons x t ih =>
    intro i
    by_cases hx : x = c
    · right
      exact ⟨0, by simp [specFirstIdx, hx], by simp [goFindChar, hx], by simp⟩
    · rcases ih (i + 1) with ⟨h1, h2⟩ | ⟨j, h1, h2, h3⟩
      · left
        refine ⟨by simp [specFirstIdx, hx, h1], by simpa [goFindChar, hx] using h2⟩
      · right
        refine ⟨j + 1, by simp [specFirstIdx, hx, h1], ?_, by simpa using h3⟩
        rw [goFindChar]
        rw [if_neg hx, h2]
        omega

/-- Claim C3 as amended: the MIME type is looked up by the suffix starting
at the FIRST dot of the target, not the last (for "a.tar.gz" the suffix
used is ".tar.gz", which is absent from the table and falls back to the
default text/html); with no dot the default entry is used. -/
theorem c3_first_dot_amended (name : Str) (hlen : name.length < 2147483648) :
    requestFiletype name =
      match specFirstIdx name '.' with
      | some i => MimeType.getMime (name.drop i)
      | none => MimeType.getMime (cs "default") := by
  unfold requestFiletype
  have hfind0 : strFindChar name '.' 0 = goFindChar '.' name 0 := by
    simp [strFindChar]
  rcases goFindChar_spec '.' name 0 with ⟨h1, h2⟩ | ⟨j, h1, h2, h3⟩
  · rw [hfind0, h2, h1]
    have : toInt32 npos = -1 := by decide
    rw [this]
    simp
  · rw [hfind0, h2, h1]
    have hj : j < 2147483648 := lt_of_lt_of_le h3 (le_of_lt hlen)
    rw [show ((0 : Nat) + j) = j from by omega, toInt32_small hj]
    have hnn : ¬ ((j : Int) < 0) := by
      push_neg
      exact_mod_cast Nat.zero_le j
    rw [if_neg hnn]
    rw [toUsize_coe (show j < USIZE_MOD by unfold USIZE_MOD; omega)]

/-- Claim C3 amended-claim witness: for the target "a.tar.gz" the lookup
uses the first-dot suffix and yields the default text/html. -/
theorem c3_first_dot_amended_witness :
    requestFiletype (cs "a.tar.gz") =
      match specFirstIdx (cs "a.tar.gz") '.' with
      | some i => MimeType.getMime ((cs "a.tar.gz").drop i)
      | none => MimeType.getMime (cs "default") :=
  c3_first_dot_amended (cs "a.tar.gz") (by decide)

/-- The index sequence produced by the round-robin cursor: starting value,
then repeatedly (next + 1) % N, one index per call. -/
def rrIdx (N : Nat) : Nat → Nat → List Nat
  | _, 0 => []
  | next, m + 1 => next :: rrIdx N ((next + 1) % N) m

/-- Every index the round-robin cursor produces is below the pool size. -/
theorem rrIdx_lt (N : Nat) (hN : 0 < N) :
    ∀ (m next : Nat), next < N → ∀ j ∈ rrIdx N next m, j < N := by
  intro m
  induction m with
  | zero => intro next _ j hj; simp [rrIdx] at hj
  | succ m ih =>
    intro next hn j hj
    rw [rrIdx] at hj
    rcases List.mem_cons.1 hj with rfl | hj
    · exact hn
    · exact ih ((next + 1) % N) (Nat.mod_lt _ hN) j hj

/-- Closed form of the round-robin index sequence. -/
theorem rrIdx_map_range (N : Nat) (hN : 0 < N) :
    ∀ (m next : Nat), next < N →
      rrIdx N next m = (List.range m).map (fun j => (next + j) % N) := by
  intro m
  induction m with
  | zero => intro next _; rfl
  | succ m ih =>
    intro next hn
    rw [rrIdx, List.range_succ_eq_map, List.map_cons]
    have hhead : (next + 0) % N = next := by
      rw [Nat.add_zero, Nat.mod_eq_of_lt hn]
    rw [hhead]
    rw [ih ((next + 1) % N) (Nat.mod_lt _ hN)]
    rw [List.map_map]
    refine congrArg _ (List.map_congr_left ?_)
    intro j _
    simp only [Function.comp]
    rw [Nat.mod_add_mod]
    congr 1
    omega

/-- Splitting the round-robin index sequence: after a calls the cursor
stands at (next + a) % N. -/
theorem rrIdx_append (N : Nat) (hN : 0 < N) :
    ∀ (a b next : Nat), next < N →
      rrIdx N next (a + b) = rrIdx N next a ++ rrIdx N ((next + a) % N) b := by
  intro a
  induction a with
  | zero =>
    intro b next hn
    rw [Nat.zero_add, Nat.add_zero, Nat.mod_eq_of_lt hn]
    rfl
  | succ a ih =>
    intro b next hn
    rw [Nat.succ_add]
    rw [rrIdx, rrIdx, ih b ((next + 1) % N) (Nat.mod_lt _ hN)]
    rw [List.cons_append]
    have : ((next + 1) % N + a) % N = (next + (a + 1)) % N := by
      rw [Nat.mod_add_mod]
      congr 1
      omega
    rw [this]

/-- One full cycle of the round-robin cursor hits every index below the
pool size exactly once. -/
theorem rrIdx_cycle_count (N next i : Nat) (hnext : next < N) (hi : i < N) :
    (rrIdx N next N).count i = 1 := by
  have hN : 0 < N := by omega
  rw [rrIdx_map_range N hN N next hnext]
  apply List.count_eq_one_of_mem
  · refine List.Nodup.map_on ?_ (List.nodup_range N)
    intro x hx y hy hxy
    rw [List.mem_range] at hx hy
    have h2 : Nat.ModEq N x y := Nat.ModEq.add_left_cancel' next hxy
    have h3 : x % N = y % N := h2
    rwa [Nat.mod_eq_of_lt hx, Nat.mod_eq_of_lt hy] at h3
  · refine List.mem_map.2 ⟨(i + N - next) % N, List.mem_range.2 (Nat.mod_lt _ hN), ?_⟩
    rw [Nat.add_mod_mod]
    have h4 : next + (i + N - next) = i + N := by omega
    rw [h4, Nat.add_mod_right, Nat.mod_eq_of_lt hi]

/-- Over N times k consecutive round-robin steps every index below N is
produced exactly k times. -/
theorem rrIdx_count (N next i k : Nat) (hnext : next < N) (hi : i < N) :
    (rrIdx N next (N * k)).count i = k := by
  have hN : 0 < N := by omega
  induction k with
  | zero => rw [Nat.mul_zero]; rfl
  | succ k ih =>
    have hsplit : N * (k + 1) = N + N * k := by ring
    rw [hsplit, rrIdx_append N hN N (N * k) next hnext, List.count_append]
    have hcur : (next + N) % N = next := by
      rw [Nat.add_mod_right, Nat.mod_eq_of_lt hnext]
    rw [hcur, rrIdx_cycle_count N next i hnext hi, ih]
    omega

/-- With an empty pool every call hands out the base loop and the cursor
never moves. -/
theorem servedLoops_base {Loop : Type} (q : PoolState Loop) (hq : q.loops = []) :
    ∀ m, servedLoops q m = List.replicate m q.baseLoop := by
  intro m
  induction m with
  | zero => rfl
  | succ m ih =>
    rw [servedLoops, List.replicate_succ]
    have hemp : q.loops.isEmpty = true := by rw [hq]; rfl
    simp only [getNextLoop, hemp, if_true, reduceIte]
    rw [ih]

/-- With a non-empty pool the served sequence is the round-robin index
sequence read through the pool vector. -/
theorem servedLoops_map {Loop : Type} (base : Loop) (loops : List Loop) (N : Nat)
    (hne : loops ≠ []) :
    ∀ (m next : Nat),
      servedLoops ⟨base, loops, N, next⟩ m =
        (rrIdx N next m).map (fun j => loops.getD j base) := by
  intro m
  induction m with
  | zero => intro next; rfl
  | succ m ih =>
    intro next
    rw [servedLoops, rrIdx, List.map_cons]
    have hemp : loops.isEmpty = false := by
      cases loops with
      | nil => exact absurd rfl hne
      | cons x t => rfl
    simp only [getNextLoop, hemp, Bool.false_eq_true, if_false, reduceIte]
    rw [ih ((next + 1) % N)]

/-- Claim C8: with a non-empty worker pool of size N (the pool vector
filled by start, so its length equals numThreads_), any window of N times
k consecutive getNextLoop calls hands each worker exactly k connections;
with an empty pool every call returns the base (acceptor) loop. -/
theorem c8_round_robin {Loop : Type} [DecidableEq Loop] (base : Loop)
    (loops : List Loop) (N next0 k : Nat) (i : Fin loops.length)
    (hlen : loops.length = N) (hnodup : loops.Nodup) (hnext : next0 < N) :
    (servedLoops ⟨base, loops, N, next0⟩ (N * k)).count (loops.get i) = k
    ∧ ∀ (Loop2 : Type) (q : PoolState Loop2) (m : Nat), q.loops = [] →
        servedLoops q m = List.replicate m q.baseLoop := by
  constructor
  · have hN : 0 < N := by have := i.isLt; omega
    have hne : loops ≠ [] := by
      intro h
      rw [h] at hlen
      simp at hlen
      omega
    rw [servedLoops_map base loops N hne (N * k) next0]
    rw [List.count_eq_countP, List.countP_map]
    have hcongr : ∀ x ∈ rrIdx N next0 (N * k),
        ((fun y => y == loops.get i) ∘ fun j => loops.getD j base) x = true ↔
          (x == (i : Nat)) = true := by
      intro x hx
      have hxN : x < N := rrIdx_lt N hN (N * k) next0 hnext x hx
      have hxl : x < loops.length := hlen ▸ hxN
      simp only [Function.comp, beq_iff_eq]
      rw [List.getD_eq_getElem loops base hxl]
      constructor
      · intro h
        have := hnodup.get_inj_iff.1 (show loops.get ⟨x, hxl⟩ = loops.get i from h)
        exact congrArg Fin.val this
      · intro h
        subst h
        rfl
    rw [List.countP_congr hcongr]
    rw [← List.count_eq_countP]
    exact rrIdx_count N next0 (i : Nat) k hnext (hlen ▸ i.isLt)
  · intro Loop2 q m hq
    exact servedLoops_base q hq m

/-- Claim C8 witness: a pool of two distinct workers served four
connections hands the first worker exactly two, and an empty pool always
serves the base loop. -/
theorem c8_round_robin_witness :
    (servedLoops ⟨99, [10, 11], 2, 0⟩ (2 * 2)).count ([10, 11].get ⟨0, by decide⟩) = 2
    ∧ ∀ (Loop2 : Type) (q : PoolState Loop2) (m : Nat), q.loops = [] →
        servedLoops q m = List.replicate m q.baseLoop :=
  c8_round_robin (99 : Nat) [10, 11] 2 0 2 ⟨0, by decide⟩ rfl (by decide) (by decide)
